import Mathlib

/-!
# CloudMouse SDK: Bluetooth connection manager

A shallow embedding of `lib/network/BluetoothManager.cpp` and the properties of
its connection lifecycle (`init`, `update`, `shutdown`), of its status queries and
of the encoder-event translator.

The BLE keyboard object, the serial console and the device-identity provider are
external collaborators.  Every call the manager makes on them is recorded, in
program order, in the list of `Effect`s a method returns; the answer the BLE
keyboard gives to `isConnected()` during a call is an argument of the method
(`live`).  Dereferencing a null `bleKeyboard` pointer and indexing `stateNames`
out of bounds are faults: the method returns `none`.
-/

namespace CloudMouse.Network

/-! ## Data model -/

/-- Connection states, `enum class BluetoothState`. -/
inductive BluetoothState where
  | IDLE
  | INITIALIZING
  | ADVERTISING
  | CONNECTED
  | DISCONNECTED
  | ERROR
  deriving DecidableEq, Repr

/-- Modelled from the spec: the header declaring `enum class BluetoothState` is not
in the source tree; the integer value of each enumerator, `(int)newState`, follows
the order in which the spec lists the six states. -/
def BluetoothState.toInt : BluetoothState → Nat
  | .IDLE => 0
  | .INITIALIZING => 1
  | .ADVERTISING => 2
  | .CONNECTED => 3
  | .DISCONNECTED => 4
  | .ERROR => 5

/-- Modelled from the spec: the header declaring `EventType` is not in the source
tree; the source names the rotation and the click kind, every other kind is
`OTHER tag`. -/
inductive EventType where
  | ENCODER_ROTATION
  | ENCODER_CLICK
  | OTHER (tag : Nat)
  deriving DecidableEq, Repr

/-- The fields of `Event` that `handleEncoderEvents` reads. -/
structure Event where
  type : EventType
  value : Int
  deriving DecidableEq, Repr

/-- The media key reports the translator writes (constants of the BLE keyboard
library, kept symbolic). -/
inductive MediaKey where
  | KEY_MEDIA_VOLUME_UP
  | KEY_MEDIA_VOLUME_DOWN
  | KEY_MEDIA_MUTE
  deriving DecidableEq, Repr

/-- The object behind the `bleKeyboard` pointer: what it was constructed with. -/
structure BleKeyboard where
  deviceName : String
  deviceManufacturer : String
  deriving DecidableEq, Repr

/-- One call on an external collaborator. -/
inductive Effect where
  | serialPrintln (line : String)
  | serialPrintf (format : String) (arg : String)
  | kbNew (deviceName : String) (deviceManufacturer : String)
  | kbBegin
  | kbIsConnected (result : Bool)
  | kbReleaseAll
  | kbWrite (key : MediaKey)
  | kbDelete
  deriving DecidableEq, Repr

/-- The data members of `class BluetoothManager`. -/
structure BluetoothManager where
  deviceName : String
  manufacturer : String
  bleKeyboard : Option BleKeyboard
  currentState : BluetoothState
  initialized : Bool
  deriving DecidableEq, Repr

/-- A method body: from the manager before the call to the returned value, the
manager after the call and the effects of the call, or `none` on a fault. -/
abbrev Exec (α : Type) : Type :=
  BluetoothManager → Option (α × BluetoothManager × List Effect)

/-- Return without touching anything. -/
def Exec.ret {α : Type} (a : α) : Exec α :=
  fun m => some (a, m, [])

/-- Sequencing of two statements: the effects are appended in program order. -/
def Exec.andThen {α β : Type} (x : Exec α) (f : α → Exec β) : Exec β :=
  fun m =>
    match x m with
    | none => none
    | some (a, m1, t1) =>
      match f a m1 with
      | none => none
      | some (b, m2, t2) => some (b, m2, t1 ++ t2)

instance : Monad Exec where
  pure := Exec.ret
  bind := Exec.andThen

/-- Read the data members. -/
def getThis : Exec BluetoothManager :=
  fun m => some (m, m, [])

/-- Overwrite the data members. -/
def setThis (m1 : BluetoothManager) : Exec Unit :=
  fun _ => some ((), m1, [])

/-- Record one call on a collaborator. -/
def emit (e : Effect) : Exec Unit :=
  fun m => some ((), m, [e])

/-- Call `bleKeyboard->...`: a fault when the pointer is null. -/
def viaKeyboard (e : Effect) : Exec Unit :=
  fun m =>
    match m.bleKeyboard with
    | none => none
    | some _ => some ((), m, [e])

/-! ## The methods of `BluetoothManager` -/

/-- The local table `stateNames` of `setState`. -/
def stateNames : Array String :=
  #["IDLE", "INITIALIZING", "ADVERTISING", "CONNECTED", "DISCONNECTED", "ERROR"]

/-- The format string of the state-transition log line. -/
def stateLogFormat : String := "🔵 Bluetooth State: %s\n"

/-- Method `BluetoothManager::setState`. -/
def setState (newState : BluetoothState) : Exec Unit := do
  let self ← getThis
  if self.currentState = newState then
    return
  setThis { self with currentState := newState }
  match stateNames[newState.toInt]? with
  | none => fun _ => none
  | some name => emit (.serialPrintf stateLogFormat name)

/-- Method `BluetoothManager::generateDeviceName`, with the result of
`DeviceID::getDeviceID()` as argument. -/
def generateDeviceName (deviceID : String) : String :=
  "CM-" ++ deviceID

/-- Modelled from the spec: the header with the default member initialisers is not
in the source tree; a constructed manager is `Idle`, not initialised, without a
handle, and `manufacturer` is a constant string (an argument here).  The body is
`BluetoothManager::BluetoothManager()`. -/
def BluetoothManager.construct (deviceID manufacturer : String) : BluetoothManager :=
  { deviceName := generateDeviceName deviceID
    manufacturer := manufacturer
    bleKeyboard := none
    currentState := .IDLE
    initialized := false }

/-- Method `BluetoothManager::init`. -/
def init : Exec Unit := do
  emit (.serialPrintln "🔵 Initializing BluetoothManager...")
  setState .INITIALIZING
  let self ← getThis
  emit (.kbNew self.deviceName self.manufacturer)
  setThis { self with bleKeyboard := some ⟨self.deviceName, self.manufacturer⟩ }
  viaKeyboard .kbBegin
  let self ← getThis
  setThis { self with initialized := true }
  setState .ADVERTISING
  let self ← getThis
  emit (.serialPrintf "✅ Bluetooth initialized: %s\n" self.deviceName)
  emit (.serialPrintln "🔵 Advertising... Waiting for connection")

/-- Method `BluetoothManager::update`; `live` is what `bleKeyboard->isConnected()` answers. -/
def update (live : Bool) : Exec Unit := do
  let self ← getThis
  if !self.initialized then
    return
  viaKeyboard (.kbIsConnected live)
  let connected := live
  if connected && self.currentState != .CONNECTED then
    setState .CONNECTED
    emit (.serialPrintln "🔵 Device connected!")
    viaKeyboard .kbReleaseAll
  else if !connected && self.currentState == .CONNECTED then
    setState .DISCONNECTED
    emit (.serialPrintln "🔵 Device disconnected")
    setState .ADVERTISING
    emit (.serialPrintln "🔵 Advertising... Waiting for reconnection")

/-- Method `BluetoothManager::shutdown`. -/
def shutdown : Exec Unit := do
  let self ← getThis
  if !self.initialized then
    return
  emit (.serialPrintln "🔵 Shutting down Bluetooth...")
  if self.bleKeyboard.isSome then
    emit .kbDelete
    setThis { self with bleKeyboard := none }
  let self ← getThis
  setThis { self with initialized := false }
  setState .IDLE
  emit (.serialPrintln "✅ Bluetooth shutdown complete")

/-- Method `BluetoothManager::isConnected`; the keyboard is asked only when the two
tests before it in the conjunction hold. -/
def isConnected (live : Bool) : Exec Bool := do
  let self ← getThis
  if !self.initialized then
    return false
  if !self.bleKeyboard.isSome then
    return false
  viaKeyboard (.kbIsConnected live)
  return live

/-- Method `BluetoothManager::isAdvertising`. -/
def isAdvertising : Exec Bool := do
  let self ← getThis
  return self.initialized && self.currentState == .ADVERTISING

/-- Method `BluetoothManager::handleEncoderEvents`; `live` is what
`bleKeyboard->isConnected()` answers inside `isConnected()`. -/
def handleEncoderEvents (event : Event) (live : Bool) : Exec Unit := do
  if !(← isConnected live) then
    return
  match event.type with
  | .ENCODER_ROTATION =>
    let delta := event.value
    if delta > 0 then
      viaKeyboard (.kbWrite .KEY_MEDIA_VOLUME_UP)
    else if delta < 0 then
      viaKeyboard (.kbWrite .KEY_MEDIA_VOLUME_DOWN)
  | .ENCODER_CLICK =>
    viaKeyboard (.kbWrite .KEY_MEDIA_MUTE)
  | .OTHER _ =>
    pure ()

/-! ## Observations on the effects of a call -/

/-- The state-transition log lines: the `printf` calls made by `setState`. -/
def isStateLog : Effect → Bool
  | .serialPrintf format _ => format == stateLogFormat
  | _ => false

/-- Any line written to the serial console. -/
def isLog : Effect → Bool
  | .serialPrintln _ => true
  | .serialPrintf _ _ => true
  | _ => false

/-- Any call on the BLE keyboard object, its construction and destruction included. -/
def isTransportCall (e : Effect) : Bool :=
  !isLog e

/-- The key reports written to the BLE keyboard, in order. -/
def keysWritten (t : List Effect) : List MediaKey :=
  t.filterMap fun e =>
    match e with
    | .kbWrite key => some key
    | _ => none

/-- How many times `releaseAll()` was called. -/
def releaseAllCount (t : List Effect) : Nat :=
  t.count .kbReleaseAll

/-! ## Sequences of calls -/

/-- One call of a public, state-changing method, with what the BLE keyboard would
answer to `isConnected()` during the call where the method can ask. -/
inductive Call where
  | init
  | update (live : Bool)
  | shutdown
  | handleEncoderEvents (event : Event) (live : Bool)
  deriving DecidableEq, Repr

/-- The method a call runs. -/
def Call.exec : Call → Exec Unit
  | .init => CloudMouse.Network.init
  | .update live => CloudMouse.Network.update live
  | .shutdown => CloudMouse.Network.shutdown
  | .handleEncoderEvents event live => CloudMouse.Network.handleEncoderEvents event live

/-- Run the calls one after the other; the result is the manager at the end and the
effects of each call, call by call. -/
def runCalls : List Call → BluetoothManager → Option (BluetoothManager × List (List Effect))
  | [], m => some (m, [])
  | c :: cs, m =>
    match c.exec m with
    | none => none
    | some (_, m1, t) =>
      match runCalls cs m1 with
      | none => none
      | some (m2, ts) => some (m2, t :: ts)

/-- The number of false-to-true edges of a sequence of booleans, `prev` being the
value before its first element (the wording of the testable property). -/
def risingEdges (prev : Bool) : List Bool → Nat
  | [] => 0
  | b :: bs => (if prev = false ∧ b = true then 1 else 0) + risingEdges b bs

/-- The states a manager is in between two calls: initialised with a handle and
advertising or connected, or not initialised, without a handle and idle. -/
def AtRest (m : BluetoothManager) : Prop :=
  (m.initialized = true ∧ m.bleKeyboard.isSome = true ∧
      (m.currentState = .ADVERTISING ∨ m.currentState = .CONNECTED)) ∨
    (m.initialized = false ∧ m.bleKeyboard = none ∧ m.currentState = .IDLE)

instance (m : BluetoothManager) : Decidable (AtRest m) := by
  unfold AtRest
  infer_instance

/-- The name by which the specification calls each state, kept apart from the table
`stateNames` of the source so that the two can be compared. -/
def BluetoothState.specName : BluetoothState → String
  | .IDLE => "IDLE"
  | .INITIALIZING => "INITIALIZING"
  | .ADVERTISING => "ADVERTISING"
  | .CONNECTED => "CONNECTED"
  | .DISCONNECTED => "DISCONNECTED"
  | .ERROR => "ERROR"

/-! ## Properties -/

/-- C1: on an initialised manager in state `CONNECTED` whose BLE keyboard answers
"not connected", one `update()` ends in state `ADVERTISING` (not `DISCONNECTED`), and
the state-transition log lines of that call are exactly the line for `DISCONNECTED`
followed by the line for `ADVERTISING`. -/
theorem update_connection_lost (m : BluetoothManager) (kb : BleKeyboard)
    (hinit : m.initialized = true) (hkb : m.bleKeyboard = some kb)
    (hstate : m.currentState = .CONNECTED) :
    ∃ m1 t, update false m = some ((), m1, t) ∧
      m1 = { m with currentState := .ADVERTISING } ∧
      m1.currentState = .ADVERTISING ∧ m1.currentState ≠ .DISCONNECTED ∧
      t.filter isStateLog =
        [.serialPrintf stateLogFormat "DISCONNECTED",
         .serialPrintf stateLogFormat "ADVERTISING"] := by
  rcases m with ⟨dn, mf, k, st, ini⟩
  simp only at hinit hkb hstate
  subst hinit hkb hstate
  refine ⟨_, _, rfl, rfl, rfl, by simp, ?_⟩
  decide

/-- C1, at a concrete manager. -/
theorem update_connection_lost_witness :
    ∃ m1 t, update false ⟨"CM-AABBCCDD", "CloudMouse", some ⟨"CM-AABBCCDD", "CloudMouse"⟩,
        .CONNECTED, true⟩ = some ((), m1, t) ∧
      m1.currentState = .ADVERTISING ∧
      t.filter isStateLog =
        [.serialPrintf stateLogFormat "DISCONNECTED",
         .serialPrintf stateLogFormat "ADVERTISING"] := by
  obtain ⟨m1, t, h1, _, h2, _, h3⟩ := update_connection_lost
    ⟨"CM-AABBCCDD", "CloudMouse", some ⟨"CM-AABBCCDD", "CloudMouse"⟩, .CONNECTED, true⟩
    ⟨"CM-AABBCCDD", "CloudMouse"⟩ rfl rfl rfl
  exact ⟨m1, t, h1, h2, h3⟩

/-- One `update()` on an initialised manager with a handle never faults, keeps the
flag and the handle, ends `CONNECTED` exactly when the keyboard answered
"connected", and calls `releaseAll()` once exactly when it answered "connected"
while the state was not `CONNECTED`. -/
theorem update_step (m : BluetoothManager) (live : Bool)
    (hinit : m.initialized = true) (hkb : m.bleKeyboard.isSome = true) :
    ∃ m1 t, update live m = some ((), m1, t) ∧
      m1.initialized = true ∧ m1.bleKeyboard = m.bleKeyboard ∧
      (m1.currentState = .CONNECTED ↔ live = true) ∧
      (m.currentState ≠ .CONNECTED → live = false → m1 = m) ∧
      (m.currentState = .CONNECTED → live = false → m1.currentState = .ADVERTISING) ∧
      releaseAllCount t =
        (if decide (m.currentState = .CONNECTED) = false ∧ live = true then 1 else 0) := by
  rcases m with ⟨dn, mf, k, st, ini⟩
  simp only at hinit hkb
  subst hinit
  cases k with
  | none => simp at hkb
  | some kb =>
    cases live <;> cases st <;>
      exact ⟨_, _, rfl, rfl, rfl, by simp, by simp, by simp, rfl⟩

/-- The `releaseAll()` calls of a run of `update()`s are the rising edges of the
answers, the value before the first answer being "the state is `CONNECTED`". -/
theorem runCalls_update_releaseAll (lives : List Bool) :
    ∀ m : BluetoothManager, m.initialized = true → m.bleKeyboard.isSome = true →
      ∃ m1 ts, runCalls (lives.map Call.update) m = some (m1, ts) ∧
        ts.length = lives.length ∧
        (ts.map releaseAllCount).sum =
          risingEdges (decide (m.currentState = .CONNECTED)) lives := by
  induction lives with
  | nil => intro m _ _; exact ⟨m, [], rfl, rfl, rfl⟩
  | cons b bs ih =>
    intro m hinit hkb
    obtain ⟨m1, t, hup, hinit1, hkb1, hst1, _, _, hcount⟩ := update_step m b hinit hkb
    obtain ⟨m2, ts, hrun, hlen, hsum⟩ := ih m1 hinit1 (by rw [hkb1]; exact hkb)
    refine ⟨m2, t :: ts, ?_, by simp [hlen], ?_⟩
    · simp [runCalls, Call.exec, hup, hrun]
    · have hb : decide (m1.currentState = .CONNECTED) = b := by
        cases b <;> simp [hst1]
      simp only [List.map_cons, List.sum_cons, hsum, hcount, risingEdges, hb]

/-- C2: on an initialised manager in state `ADVERTISING`, the number of
`releaseAll()` calls made by successive `update()`s equals the number of
false-to-true edges of the answers of the BLE keyboard (the value before the first
answer taken as false); for the answers false, true, true, false, true the calls
release 0, 1, 0, 0 and 1 times: twice in all, and not on the repeated true. -/
theorem update_releaseAll_rising_edges (m : BluetoothManager) (kb : BleKeyboard)
    (hinit : m.initialized = true) (hkb : m.bleKeyboard = some kb)
    (hstate : m.currentState = .ADVERTISING) (lives : List Bool) :
    (∃ m1 ts, runCalls (lives.map Call.update) m = some (m1, ts) ∧
        ts.length = lives.length ∧
        (ts.map releaseAllCount).sum = risingEdges false lives) ∧
    (∃ m1 ts, runCalls ([false, true, true, false, true].map Call.update) m = some (m1, ts) ∧
        ts.map releaseAllCount = [0, 1, 0, 0, 1] ∧
        (ts.map releaseAllCount).sum = 2 ∧
        risingEdges false [false, true, true, false, true] = 2) := by
  constructor
  · obtain ⟨m1, ts, hrun, hlen, hsum⟩ :=
      runCalls_update_releaseAll lives m hinit (by simp [hkb])
    refine ⟨m1, ts, hrun, hlen, ?_⟩
    rw [hsum, hstate]
    rfl
  · rcases m with ⟨dn, mf, k, st, ini⟩
    simp only at hinit hkb hstate
    subst hinit hkb hstate
    exact ⟨_, _, rfl, by decide, by decide, by decide⟩

/-- C2, at a concrete manager and the answers of the testable property. -/
theorem update_releaseAll_rising_edges_witness :
    ∃ m1 ts, runCalls ([false, true, true, false, true].map Call.update)
        ⟨"CM-AABBCCDD", "CloudMouse", some ⟨"CM-AABBCCDD", "CloudMouse"⟩,
          .ADVERTISING, true⟩ = some (m1, ts) ∧
      ts.length = 5 ∧ (ts.map releaseAllCount).sum = 2 :=
  (update_releaseAll_rising_edges
    ⟨"CM-AABBCCDD", "CloudMouse", some ⟨"CM-AABBCCDD", "CloudMouse"⟩, .ADVERTISING, true⟩
    ⟨"CM-AABBCCDD", "CloudMouse"⟩ rfl rfl rfl [false, true, true, false, true]).1

/-- What `isConnected()` returns and does: it never faults, changes nothing, and
asks the BLE keyboard exactly when the manager is initialised with a handle. -/
theorem isConnected_eq (m : BluetoothManager) (live : Bool) :
    isConnected live m =
      if m.initialized = true ∧ m.bleKeyboard.isSome = true then
        some (live, m, [.kbIsConnected live])
      else some (false, m, []) := by
  rcases m with ⟨dn, mf, k, st, ini⟩
  cases ini <;> cases k <;> simp <;> rfl

/-- C3: when `isConnected()` is false, `handleEncoderEvents` of any event writes no
key report and changes nothing (its only effects are those of the `isConnected()`
test itself); when `isConnected()` is true, a rotation event of value `+5` writes
exactly one key report, volume up. -/
theorem handleEncoderEvents_gating (m : BluetoothManager) (live connected : Bool)
    (t0 : List Effect) (hconn : isConnected live m = some (connected, m, t0)) :
    (connected = false → ∀ event : Event,
        handleEncoderEvents event live m = some ((), m, t0) ∧ keysWritten t0 = []) ∧
    (connected = true →
        handleEncoderEvents ⟨.ENCODER_ROTATION, 5⟩ live m =
          some ((), m, t0 ++ [.kbWrite .KEY_MEDIA_VOLUME_UP]) ∧
        keysWritten (t0 ++ [.kbWrite .KEY_MEDIA_VOLUME_UP]) = [.KEY_MEDIA_VOLUME_UP]) := by
  rw [isConnected_eq] at hconn
  rcases m with ⟨dn, mf, k, st, ini⟩
  constructor
  · intro hc event
    subst hc
    cases ini <;> cases k <;> cases live <;> simp at hconn <;> subst hconn <;>
      exact ⟨rfl, rfl⟩
  · intro hc
    subst hc
    cases ini <;> cases k <;> cases live <;> simp at hconn
    subst hconn
    exact ⟨rfl, rfl⟩

/-- C3, at a manager that is initialised and advertising: once with the BLE
keyboard answering "not connected", once with it answering "connected". -/
theorem handleEncoderEvents_gating_witness :
    (handleEncoderEvents ⟨.ENCODER_ROTATION, 5⟩ false
        ⟨"CM-AABBCCDD", "CloudMouse", some ⟨"CM-AABBCCDD", "CloudMouse"⟩, .ADVERTISING, true⟩ =
      some ((), ⟨"CM-AABBCCDD", "CloudMouse", some ⟨"CM-AABBCCDD", "CloudMouse"⟩,
        .ADVERTISING, true⟩, [.kbIsConnected false])) ∧
    (handleEncoderEvents ⟨.ENCODER_ROTATION, 5⟩ true
        ⟨"CM-AABBCCDD", "CloudMouse", some ⟨"CM-AABBCCDD", "CloudMouse"⟩, .ADVERTISING, true⟩ =
      some ((), ⟨"CM-AABBCCDD", "CloudMouse", some ⟨"CM-AABBCCDD", "CloudMouse"⟩,
        .ADVERTISING, true⟩, [.kbIsConnected true, .kbWrite .KEY_MEDIA_VOLUME_UP])) :=
  ⟨((handleEncoderEvents_gating
      ⟨"CM-AABBCCDD", "CloudMouse", some ⟨"CM-AABBCCDD", "CloudMouse"⟩, .ADVERTISING, true⟩
      false false [.kbIsConnected false] rfl).1 rfl ⟨.ENCODER_ROTATION, 5⟩).1,
   ((handleEncoderEvents_gating
      ⟨"CM-AABBCCDD", "CloudMouse", some ⟨"CM-AABBCCDD", "CloudMouse"⟩, .ADVERTISING, true⟩
      true true [.kbIsConnected true] rfl).2 rfl).1⟩

/-- C4: when `isConnected()` is true, `handleEncoderEvents` writes exactly volume up
for a rotation of positive value, volume down for a rotation of negative value
(such as `-3`), nothing for a rotation of value `0`, mute for a click, and nothing
for any other kind of event; `t0` is the effect of the `isConnected()` test. -/
theorem handleEncoderEvents_mapping (m : BluetoothManager) (live : Bool)
    (t0 : List Effect) (hconn : isConnected live m = some (true, m, t0)) :
    keysWritten t0 = [] ∧
    (∀ value : Int, 0 < value →
      handleEncoderEvents ⟨.ENCODER_ROTATION, value⟩ live m =
        some ((), m, t0 ++ [.kbWrite .KEY_MEDIA_VOLUME_UP])) ∧
    (∀ value : Int, value < 0 →
      handleEncoderEvents ⟨.ENCODER_ROTATION, value⟩ live m =
        some ((), m, t0 ++ [.kbWrite .KEY_MEDIA_VOLUME_DOWN])) ∧
    handleEncoderEvents ⟨.ENCODER_ROTATION, -3⟩ live m =
      some ((), m, t0 ++ [.kbWrite .KEY_MEDIA_VOLUME_DOWN]) ∧
    handleEncoderEvents ⟨.ENCODER_ROTATION, 0⟩ live m = some ((), m, t0) ∧
    (∀ value : Int,
      handleEncoderEvents ⟨.ENCODER_CLICK, value⟩ live m =
        some ((), m, t0 ++ [.kbWrite .KEY_MEDIA_MUTE])) ∧
    (∀ (tag : Nat) (value : Int),
      handleEncoderEvents ⟨.OTHER tag, value⟩ live m = some ((), m, t0)) := by
  rw [isConnected_eq] at hconn
  rcases m with ⟨dn, mf, k, st, ini⟩
  rcases k with _ | kb <;> cases ini <;> cases live <;> simp at hconn
  subst hconn
  have hpos : ∀ value : Int, 0 < value →
      handleEncoderEvents ⟨.ENCODER_ROTATION, value⟩ true ⟨dn, mf, some kb, st, true⟩ =
        some ((), ⟨dn, mf, some kb, st, true⟩,
          [.kbIsConnected true] ++ [.kbWrite .KEY_MEDIA_VOLUME_UP]) := by
    intro value hv
    simp [handleEncoderEvents, isConnected, getThis, viaKeyboard, bind, Exec.andThen,
      pure, Exec.ret, hv]
  have hneg : ∀ value : Int, value < 0 →
      handleEncoderEvents ⟨.ENCODER_ROTATION, value⟩ true ⟨dn, mf, some kb, st, true⟩ =
        some ((), ⟨dn, mf, some kb, st, true⟩,
          [.kbIsConnected true] ++ [.kbWrite .KEY_MEDIA_VOLUME_DOWN]) := by
    intro value hv
    have hv2 : ¬ 0 < value := by omega
    simp [handleEncoderEvents, isConnected, getThis, viaKeyboard, bind, Exec.andThen,
      pure, Exec.ret, hv, hv2]
  exact ⟨rfl, hpos, hneg, hneg (-3) (by decide), rfl, fun _ => rfl, fun _ _ => rfl⟩

/-- C4, at a manager that is initialised and connected. -/
theorem handleEncoderEvents_mapping_witness :
    handleEncoderEvents ⟨.ENCODER_ROTATION, -3⟩ true
        ⟨"CM-AABBCCDD", "CloudMouse", some ⟨"CM-AABBCCDD", "CloudMouse"⟩, .CONNECTED, true⟩ =
      some ((), ⟨"CM-AABBCCDD", "CloudMouse", some ⟨"CM-AABBCCDD", "CloudMouse"⟩,
        .CONNECTED, true⟩, [.kbIsConnected true, .kbWrite .KEY_MEDIA_VOLUME_DOWN]) :=
  (handleEncoderEvents_mapping
    ⟨"CM-AABBCCDD", "CloudMouse", some ⟨"CM-AABBCCDD", "CloudMouse"⟩, .CONNECTED, true⟩
    true [.kbIsConnected true] rfl).2.2.2.1

/-- C5: on a manager that is not initialised, `update()` and `handleEncoderEvents`
of any event return normally, leave every data member as it was and have no
effect at all: no call on the BLE keyboard and no log line, whatever the BLE
keyboard would have answered. -/
theorem uninitialized_noop (m : BluetoothManager) (hinit : m.initialized = false)
    (live : Bool) (event : Event) :
    update live m = some ((), m, []) ∧
    handleEncoderEvents event live m = some ((), m, []) := by
  rcases m with ⟨dn, mf, k, st, ini⟩
  simp only at hinit
  subst hinit
  exact ⟨rfl, rfl⟩

/-- C5, at a freshly constructed manager. -/
theorem uninitialized_noop_witness :
    update true (BluetoothManager.construct "AABBCCDD" "CloudMouse") =
        some ((), BluetoothManager.construct "AABBCCDD" "CloudMouse", []) ∧
    handleEncoderEvents ⟨.ENCODER_CLICK, 0⟩ true
        (BluetoothManager.construct "AABBCCDD" "CloudMouse") =
      some ((), BluetoothManager.construct "AABBCCDD" "CloudMouse", []) :=
  uninitialized_noop (BluetoothManager.construct "AABBCCDD" "CloudMouse") rfl true
    ⟨.ENCODER_CLICK, 0⟩

/-- C6: `shutdown()` is idempotent.  From any manager the first call returns
normally, leaving a manager `m1` that is not initialised; a second call on `m1`
returns `m1` itself with no effect at all (no log line, no call on the BLE
keyboard), so two calls in a row end in the same manager as one. -/
theorem shutdown_idempotent (m : BluetoothManager) :
    ∃ m1 t1, shutdown m = some ((), m1, t1) ∧
      shutdown m1 = some ((), m1, []) ∧
      runCalls [.shutdown, .shutdown] m = some (m1, [t1, []]) ∧
      runCalls [.shutdown] m = some (m1, [t1]) ∧
      m1.initialized = false ∧
      (m.initialized = true → m1.currentState = .IDLE ∧ m1.bleKeyboard = none) := by
  rcases m with ⟨dn, mf, k, st, ini⟩
  cases ini <;> cases k <;> cases st <;>
    exact ⟨_, _, rfl, rfl, rfl, rfl, rfl, by simp⟩

/-- C6, at an initialised, connected manager. -/
theorem shutdown_idempotent_witness :
    ∃ m1 t1, shutdown ⟨"CM-AABBCCDD", "CloudMouse", some ⟨"CM-AABBCCDD", "CloudMouse"⟩,
        .CONNECTED, true⟩ = some ((), m1, t1) ∧
      shutdown m1 = some ((), m1, []) ∧ m1.currentState = .IDLE := by
  obtain ⟨m1, t1, h1, h2, _, _, _, h6⟩ := shutdown_idempotent
    ⟨"CM-AABBCCDD", "CloudMouse", some ⟨"CM-AABBCCDD", "CloudMouse"⟩, .CONNECTED, true⟩
  exact ⟨m1, t1, h1, h2, (h6 rfl).1⟩

/-- Method `handleEncoderEvents` never faults and never changes a data member. -/
theorem handleEncoderEvents_frame (m : BluetoothManager) (event : Event) (live : Bool) :
    ∃ t, handleEncoderEvents event live m = some ((), m, t) := by
  rcases m with ⟨dn, mf, k, st, ini⟩
  rcases event with ⟨ty, value⟩
  rcases k with _ | kb <;> cases ini <;> cases live <;> cases ty
  all_goals first | exact ⟨_, rfl⟩ | skip
  simp only [handleEncoderEvents, isConnected, getThis, bind, Exec.andThen, pure, Exec.ret]
  split_ifs <;> exact ⟨_, rfl⟩

/-- A freshly constructed manager is at rest. -/
theorem construct_atRest (deviceID manufacturer : String) :
    AtRest (BluetoothManager.construct deviceID manufacturer) :=
  Or.inr ⟨rfl, rfl, rfl⟩

/-- On a manager at rest every public call returns normally and leaves the manager
at rest. -/
theorem exec_atRest (m : BluetoothManager) (h : AtRest m) (c : Call) :
    ∃ m1 t, c.exec m = some ((), m1, t) ∧ AtRest m1 := by
  cases c with
  | handleEncoderEvents event live =>
    obtain ⟨t, ht⟩ := handleEncoderEvents_frame m event live
    exact ⟨m, t, ht, h⟩
  | init =>
    rcases m with ⟨dn, mf, k, st, ini⟩
    rcases h with ⟨h1, h2, h3 | h3⟩ | ⟨h1, h2, h3⟩ <;> simp only at h1 h2 h3 <;>
      subst h1 h3 <;> exact ⟨_, _, rfl, Or.inl ⟨rfl, rfl, Or.inl rfl⟩⟩
  | shutdown =>
    rcases m with ⟨dn, mf, k, st, ini⟩
    rcases h with ⟨h1, h2, h3 | h3⟩ | ⟨h1, h2, h3⟩ <;> simp only at h1 h2 h3 <;>
      subst h1 h3 <;> rcases k with _ | kb <;> simp at h2 <;>
      exact ⟨_, _, rfl, Or.inr ⟨rfl, rfl, rfl⟩⟩
  | update live =>
    rcases h with ⟨h1, h2, h3⟩ | ⟨h1, h2, h3⟩
    · obtain ⟨m1, t, hup, hi, hk, hc, hsame, hdrop, _⟩ := update_step m live h1 h2
      refine ⟨m1, t, hup, Or.inl ⟨hi, by rw [hk]; exact h2, ?_⟩⟩
      cases live with
      | true => exact Or.inr (hc.2 rfl)
      | false =>
        rcases h3 with h3 | h3
        · have hm : m1 = m := hsame (by rw [h3]; decide) rfl
          rw [hm]
          exact Or.inl h3
        · exact Or.inl (hdrop h3 rfl)
    · rcases m with ⟨dn, mf, k, st, ini⟩
      simp only at h1 h2 h3
      subst h1 h2 h3
      exact ⟨_, _, rfl, Or.inr ⟨rfl, rfl, rfl⟩⟩

/-- From a manager at rest every sequence of public calls runs to its end and
leaves the manager at rest. -/
theorem runCalls_atRest (calls : List Call) :
    ∀ m : BluetoothManager, AtRest m →
      ∃ m1 ts, runCalls calls m = some (m1, ts) ∧ AtRest m1 := by
  induction calls with
  | nil => intro m h; exact ⟨m, [], rfl, h⟩
  | cons c cs ih =>
    intro m h
    obtain ⟨m1, t, hc, h1⟩ := exec_atRest m h c
    obtain ⟨m2, ts, hrun, h2⟩ := ih m1 h1
    exact ⟨m2, t :: ts, by simp [runCalls, hc, hrun], h2⟩

/-- C7: `DISCONNECTED` is never the state at rest.  From a freshly constructed
manager every sequence of public calls (`init`, `update` with any answer of the
BLE keyboard, `shutdown`, `handleEncoderEvents` with any event) runs to its end,
and the current state after it is not `DISCONNECTED`. -/
theorem never_rests_disconnected (deviceID manufacturer : String) (calls : List Call) :
    ∃ m ts, runCalls calls (BluetoothManager.construct deviceID manufacturer) = some (m, ts) ∧
      m.currentState ≠ .DISCONNECTED := by
  obtain ⟨m, ts, hrun, h⟩ :=
    runCalls_atRest calls _ (construct_atRest deviceID manufacturer)
  refine ⟨m, ts, hrun, ?_⟩
  rcases h with ⟨_, _, h3 | h3⟩ | ⟨_, _, h3⟩ <;> rw [h3] <;> decide

/-- C8: the device name derived at construction is the literal `CM-` followed
directly by the identity string, character for character: nothing in between,
nothing cut off; for the identity `AABBCCDD` it is `CM-AABBCCDD`. -/
theorem deviceName_format (deviceID manufacturer : String) :
    (BluetoothManager.construct deviceID manufacturer).deviceName = "CM-" ++ deviceID ∧
    (BluetoothManager.construct deviceID manufacturer).deviceName.data =
      ['C', 'M', '-'] ++ deviceID.data ∧
    (BluetoothManager.construct deviceID manufacturer).deviceName.length =
      3 + deviceID.length ∧
    (BluetoothManager.construct "AABBCCDD" manufacturer).deviceName = "CM-AABBCCDD" := by
  have hlen : "CM-".length = 3 := by decide
  have hname : ("CM-" ++ "AABBCCDD" : String) = "CM-AABBCCDD" := by decide
  refine ⟨rfl, ?_, ?_, hname⟩
  · simp [BluetoothManager.construct, generateDeviceName, String.data_append]
  · simp [BluetoothManager.construct, generateDeviceName, String.length_append, hlen]

/-- C9: on a freshly constructed manager `init()` returns normally; it constructs
the BLE keyboard with the device name and the manufacturer, starts it once, and
ends initialised, with the handle present and in state `ADVERTISING`; its
state-transition log lines are `INITIALIZING` then `ADVERTISING`. -/
theorem init_fresh (deviceID manufacturer : String) :
    ∃ m1 t, init (BluetoothManager.construct deviceID manufacturer) = some ((), m1, t) ∧
      m1.initialized = true ∧
      m1.bleKeyboard = some ⟨generateDeviceName deviceID, manufacturer⟩ ∧
      m1.currentState = .ADVERTISING ∧
      m1.deviceName = generateDeviceName deviceID ∧ m1.manufacturer = manufacturer ∧
      t.filter isTransportCall =
        [.kbNew (generateDeviceName deviceID) manufacturer, .kbBegin] ∧
      t.filter isStateLog =
        [.serialPrintf stateLogFormat "INITIALIZING",
         .serialPrintf stateLogFormat "ADVERTISING"] :=
  ⟨_, _, rfl, rfl, rfl, rfl, rfl, rfl, rfl, rfl⟩

/-- C10: on an initialised manager holding a handle, in any state, `shutdown()`
returns normally and ends with the handle absent, not initialised and in state
`IDLE`; it destroys the BLE keyboard exactly once and makes no other call on
it. -/
theorem shutdown_initialized (m : BluetoothManager) (kb : BleKeyboard)
    (hinit : m.initialized = true) (hkb : m.bleKeyboard = some kb) :
    ∃ m1 t, shutdown m = some ((), m1, t) ∧
      m1.bleKeyboard = none ∧ m1.initialized = false ∧ m1.currentState = .IDLE ∧
      m1.deviceName = m.deviceName ∧ m1.manufacturer = m.manufacturer ∧
      t.count .kbDelete = 1 ∧ t.filter isTransportCall = [.kbDelete] := by
  rcases m with ⟨dn, mf, k, st, ini⟩
  simp only at hinit hkb
  subst hinit hkb
  cases st <;> exact ⟨_, _, rfl, rfl, rfl, rfl, rfl, rfl, by decide, by decide⟩

/-- C10, at a connected manager. -/
theorem shutdown_initialized_witness :
    ∃ t, shutdown ⟨"CM-AABBCCDD", "CloudMouse", some ⟨"CM-AABBCCDD", "CloudMouse"⟩,
        .CONNECTED, true⟩ =
        some ((), ⟨"CM-AABBCCDD", "CloudMouse", none, .IDLE, false⟩, t) ∧
      t.count .kbDelete = 1 := by
  obtain ⟨m1, t, h, h1, h2, h3, h4, h5, h6, _⟩ := shutdown_initialized
    ⟨"CM-AABBCCDD", "CloudMouse", some ⟨"CM-AABBCCDD", "CloudMouse"⟩, .CONNECTED, true⟩
    ⟨"CM-AABBCCDD", "CloudMouse"⟩ rfl rfl
  rcases m1 with ⟨dn, mf, k, st, ini⟩
  simp only at h1 h2 h3 h4 h5
  subst h1 h2 h3 h4 h5
  exact ⟨t, h, h6⟩

/-- C11: `isConnected()` returns normally from every manager; it returns true exactly
when the manager is initialised, the handle is present and the BLE keyboard answers
"connected"; it changes no data member, writes no log line, and its only possible
effect is the question it puts to the BLE keyboard. -/
theorem isConnected_iff (m : BluetoothManager) (live : Bool) :
    ∃ b t, isConnected live m = some (b, m, t) ∧
      (b = true ↔
        m.initialized = true ∧ m.bleKeyboard.isSome = true ∧ live = true) ∧
      t.filter isLog = [] ∧
      (∀ e ∈ t, e = .kbIsConnected live) := by
  rw [isConnected_eq]
  rcases m with ⟨dn, mf, k, st, ini⟩
  rcases k with _ | kb <;> cases ini <;> cases live <;>
    exact ⟨_, _, rfl, by simp, by simp [isLog], by simp⟩

/-- C12: `isAdvertising()` returns normally from every manager; it returns true
exactly when the manager is initialised and the current state is `ADVERTISING`; it
changes no data member and has no effect. -/
theorem isAdvertising_iff (m : BluetoothManager) :
    ∃ b, isAdvertising m = some (b, m, []) ∧
      (b = true ↔ m.initialized = true ∧ m.currentState = .ADVERTISING) := by
  rcases m with ⟨dn, mf, k, st, ini⟩
  cases ini <;> cases st <;> exact ⟨_, rfl, by simp⟩

/-- C13: `setState` with the state that is already current returns the manager as it
was and writes no log line (it has no effect at all). -/
theorem setState_same (m : BluetoothManager) :
    setState m.currentState m = some ((), m, []) := by
  rcases m with ⟨dn, mf, k, st, ini⟩
  cases st <;> rfl

/-- C14: for each of the six states `s` and every manager whose current state is not
`s`, `setState s` returns normally, makes `s` the current state, changes no other
data member and writes exactly one log line, carrying the name of `s`; the integer
value of `s` is within the six entries of `stateNames` and selects that name. -/
theorem setState_changes (m : BluetoothManager) (s : BluetoothState)
    (hne : m.currentState ≠ s) :
    setState s m =
        some ((), { m with currentState := s },
          [.serialPrintf stateLogFormat s.specName]) ∧
      stateNames.size = 6 ∧ s.toInt < stateNames.size ∧
      stateNames[s.toInt]? = some s.specName := by
  rcases m with ⟨dn, mf, k, st, ini⟩
  simp only at hne
  cases s <;> cases st <;>
    first
    | exact absurd rfl hne
    | exact ⟨rfl, by decide, by decide, by decide⟩

/-- C14, at an advertising manager set to `CONNECTED`. -/
theorem setState_changes_witness :
    setState .CONNECTED
        ⟨"CM-AABBCCDD", "CloudMouse", some ⟨"CM-AABBCCDD", "CloudMouse"⟩, .ADVERTISING, true⟩ =
      some ((), ⟨"CM-AABBCCDD", "CloudMouse", some ⟨"CM-AABBCCDD", "CloudMouse"⟩,
        .CONNECTED, true⟩, [.serialPrintf stateLogFormat "CONNECTED"]) :=
  (setState_changes
    ⟨"CM-AABBCCDD", "CloudMouse", some ⟨"CM-AABBCCDD", "CloudMouse"⟩, .ADVERTISING, true⟩
    .CONNECTED (by decide)).1

/-- C15: on an initialised manager holding a handle, when the BLE keyboard answers
"connected" and the state is already `CONNECTED`, or answers "not connected" and the
state is not `CONNECTED`, `update()` returns the manager as it was; its only effect
is the question put to the BLE keyboard: no log line and no `releaseAll()`. -/
theorem update_unchanged (m : BluetoothManager) (kb : BleKeyboard) (live : Bool)
    (hinit : m.initialized = true) (hkb : m.bleKeyboard = some kb)
    (hcase : (live = true ∧ m.currentState = .CONNECTED) ∨
      (live = false ∧ m.currentState ≠ .CONNECTED)) :
    update live m = some ((), m, [.kbIsConnected live]) ∧
      [Effect.kbIsConnected live].filter isLog = [] ∧
      releaseAllCount [.kbIsConnected live] = 0 := by
  rcases m with ⟨dn, mf, k, st, ini⟩
  simp only at hinit hkb hcase
  subst hinit hkb
  rcases hcase with ⟨hl, hs⟩ | ⟨hl, hs⟩
  · subst hl hs
    exact ⟨rfl, rfl, rfl⟩
  · subst hl
    cases st <;>
      first
      | exact absurd rfl hs
      | exact ⟨rfl, rfl, rfl⟩

/-- C15, at a connected manager still connected and at an advertising manager still
not connected. -/
theorem update_unchanged_witness :
    update true
        ⟨"CM-AABBCCDD", "CloudMouse", some ⟨"CM-AABBCCDD", "CloudMouse"⟩, .CONNECTED, true⟩ =
      some ((), ⟨"CM-AABBCCDD", "CloudMouse", some ⟨"CM-AABBCCDD", "CloudMouse"⟩,
        .CONNECTED, true⟩, [.kbIsConnected true]) ∧
    update false
        ⟨"CM-AABBCCDD", "CloudMouse", some ⟨"CM-AABBCCDD", "CloudMouse"⟩, .ADVERTISING, true⟩ =
      some ((), ⟨"CM-AABBCCDD", "CloudMouse", some ⟨"CM-AABBCCDD", "CloudMouse"⟩,
        .ADVERTISING, true⟩, [.kbIsConnected false]) :=
  ⟨(update_unchanged
      ⟨"CM-AABBCCDD", "CloudMouse", some ⟨"CM-AABBCCDD", "CloudMouse"⟩, .CONNECTED, true⟩
      ⟨"CM-AABBCCDD", "CloudMouse"⟩ true rfl rfl (Or.inl ⟨rfl, rfl⟩)).1,
   (update_unchanged
      ⟨"CM-AABBCCDD", "CloudMouse", some ⟨"CM-AABBCCDD", "CloudMouse"⟩, .ADVERTISING, true⟩
      ⟨"CM-AABBCCDD", "CloudMouse"⟩ false rfl rfl (Or.inr ⟨rfl, by decide⟩)).1⟩

/-- Method `handleEncoderEvents` never faults, never changes a data member and writes
no log line. -/
theorem handleEncoderEvents_noLog (m : BluetoothManager) (event : Event) (live : Bool) :
    ∃ t, handleEncoderEvents event live m = some ((), m, t) ∧ t.filter isLog = [] := by
  rcases m with ⟨dn, mf, k, st, ini⟩
  rcases event with ⟨ty, value⟩
  rcases k with _ | kb <;> cases ini <;> cases live <;> cases ty
  all_goals first | exact ⟨_, rfl, rfl⟩ | skip
  simp only [handleEncoderEvents, isConnected, getThis, bind, Exec.andThen, pure, Exec.ret]
  split_ifs <;> exact ⟨_, rfl, rfl⟩

/-- On a manager at rest every public call returns normally, leaves the manager at
rest and writes no state-transition log line for `ERROR`. -/
theorem exec_atRest_noErrorLog (m : BluetoothManager) (h : AtRest m) (c : Call) :
    ∃ m1 t, c.exec m = some ((), m1, t) ∧ AtRest m1 ∧
      Effect.serialPrintf stateLogFormat "ERROR" ∉ t := by
  cases c with
  | handleEncoderEvents event live =>
    obtain ⟨t, ht, hlog⟩ := handleEncoderEvents_noLog m event live
    refine ⟨m, t, ht, h, fun hmem => ?_⟩
    have hf : Effect.serialPrintf stateLogFormat "ERROR" ∈ t.filter isLog :=
      List.mem_filter.mpr ⟨hmem, rfl⟩
    rw [hlog] at hf
    exact List.not_mem_nil _ hf
  | init =>
    rcases m with ⟨dn, mf, k, st, ini⟩
    rcases h with ⟨h1, h2, h3 | h3⟩ | ⟨h1, h2, h3⟩ <;> simp only at h1 h2 h3 <;>
      subst h1 h3 <;>
      refine ⟨_, _, rfl, Or.inl ⟨rfl, rfl, Or.inl rfl⟩, ?_⟩ <;>
      simp <;>
      exact ⟨by decide, by decide, fun hfmt => absurd hfmt (by decide)⟩
  | shutdown =>
    rcases m with ⟨dn, mf, k, st, ini⟩
    rcases h with ⟨h1, h2, h3 | h3⟩ | ⟨h1, h2, h3⟩ <;> simp only at h1 h2 h3 <;>
      subst h1 h3 <;> rcases k with _ | kb <;> simp at h2 <;>
      exact ⟨_, _, rfl, Or.inr ⟨rfl, rfl, rfl⟩, by decide⟩
  | update live =>
    rcases m with ⟨dn, mf, k, st, ini⟩
    rcases h with ⟨h1, h2, h3 | h3⟩ | ⟨h1, h2, h3⟩ <;> simp only at h1 h2 h3 <;>
      subst h1 h3 <;> rcases k with _ | kb <;> simp at h2 <;> cases live
    · exact ⟨_, _, rfl, Or.inl ⟨rfl, rfl, Or.inl rfl⟩, by decide⟩
    · exact ⟨_, _, rfl, Or.inl ⟨rfl, rfl, Or.inr rfl⟩, by decide⟩
    · exact ⟨_, _, rfl, Or.inl ⟨rfl, rfl, Or.inl rfl⟩, by decide⟩
    · exact ⟨_, _, rfl, Or.inl ⟨rfl, rfl, Or.inr rfl⟩, by decide⟩
    · exact ⟨_, _, rfl, Or.inr ⟨rfl, rfl, rfl⟩, by decide⟩
    · exact ⟨_, _, rfl, Or.inr ⟨rfl, rfl, rfl⟩, by decide⟩

/-- From a manager at rest every sequence of public calls runs to its end, leaves the
manager at rest, and no call of it writes a state-transition log line for `ERROR`. -/
theorem runCalls_atRest_noErrorLog (calls : List Call) :
    ∀ m : BluetoothManager, AtRest m →
      ∃ m1 ts, runCalls calls m = some (m1, ts) ∧ AtRest m1 ∧
        ∀ t ∈ ts, Effect.serialPrintf stateLogFormat "ERROR" ∉ t := by
  induction calls with
  | nil => intro m h; exact ⟨m, [], rfl, h, by simp⟩
  | cons c cs ih =>
    intro m h
    obtain ⟨m1, t, hc, h1, hlog⟩ := exec_atRest_noErrorLog m h c
    obtain ⟨m2, ts, hrun, h2, hlogs⟩ := ih m1 h1
    refine ⟨m2, t :: ts, by simp [runCalls, hc, hrun], h2, ?_⟩
    intro t1 ht1
    rcases List.mem_cons.mp ht1 with rfl | hmem
    · exact hlog
    · exact hlogs t1 hmem

/-- An initialised manager without a handle is where `update()` would fault. -/
theorem update_faults_without_handle (m : BluetoothManager) (live : Bool)
    (hinit : m.initialized = true) (hkb : m.bleKeyboard = none) :
    update live m = none := by
  rcases m with ⟨dn, mf, k, st, ini⟩
  simp only at hinit hkb
  subst hinit hkb
  rfl

/-- C16: the `ERROR` state is never set.  From a freshly constructed manager every
sequence of public calls (`init`, `update` with any answer of the BLE keyboard,
`shutdown`, `handleEncoderEvents` with any event) runs to its end, the current
state after it is not `ERROR`, and no call of it writes a state-transition log line
for `ERROR`. -/
theorem never_error (deviceID manufacturer : String) (calls : List Call) :
    ∃ m ts, runCalls calls (BluetoothManager.construct deviceID manufacturer) = some (m, ts) ∧
      m.currentState ≠ .ERROR ∧
      ∀ t ∈ ts, Effect.serialPrintf stateLogFormat BluetoothState.ERROR.specName ∉ t := by
  obtain ⟨m, ts, hrun, h, hlog⟩ :=
    runCalls_atRest_noErrorLog calls _ (construct_atRest deviceID manufacturer)
  refine ⟨m, ts, hrun, ?_, hlog⟩
  rcases h with ⟨_, _, h3 | h3⟩ | ⟨_, _, h3⟩ <;> rw [h3] <;> decide

/-- C17: from a freshly constructed manager, after any sequence of public calls, a
further `update()` returns normally; if the manager is initialised the state after
it is `CONNECTED` when the BLE keyboard answered "connected" and `ADVERTISING` when
it answered "not connected"; if the manager is not initialised its state is `IDLE`
and the `update()` leaves it as it is. -/
theorem update_tracks_link (deviceID manufacturer : String) (calls : List Call)
    (live : Bool) :
    ∃ m ts m1 t,
      runCalls calls (BluetoothManager.construct deviceID manufacturer) = some (m, ts) ∧
      update live m = some ((), m1, t) ∧
      (m.initialized = true →
        m1.currentState = (if live = true then .CONNECTED else .ADVERTISING)) ∧
      (m.initialized = false → m.currentState = .IDLE ∧ m1 = m) := by
  obtain ⟨m, ts, hrun, h⟩ :=
    runCalls_atRest calls _ (construct_atRest deviceID manufacturer)
  rcases h with ⟨h1, h2, h3⟩ | ⟨h1, h2, h3⟩
  · obtain ⟨m1, t, hup, _, _, hc, hsame, hdrop, _⟩ := update_step m live h1 h2
    refine ⟨m, ts, m1, t, hrun, hup, fun _ => ?_, fun hf => ?_⟩
    · cases live with
      | true => simpa using hc.2 rfl
      | false =>
        rcases h3 with h3 | h3
        · have hm : m1 = m := hsame (by rw [h3]; decide) rfl
          simpa [hm] using h3
        · simpa using hdrop h3 rfl
    · rw [h1] at hf
      exact absurd hf (by decide)
  · rcases m with ⟨dn, mf, k, st, ini⟩
    simp only at h1 h2 h3
    subst h1 h2 h3
    exact ⟨_, ts, _, _, hrun, rfl, fun hf => by simp at hf, fun _ => ⟨rfl, rfl⟩⟩

/-- C17, after `init()` and a connecting `update()`, with the BLE keyboard then
answering "not connected". -/
theorem update_tracks_link_witness :
    ∃ m ts m1 t,
      runCalls [.init, .update true] (BluetoothManager.construct "AABBCCDD" "CloudMouse") =
        some (m, ts) ∧
      update false m = some ((), m1, t) ∧
      m.initialized = true ∧ m.currentState = .CONNECTED ∧
      m1.currentState = .ADVERTISING := by
  obtain ⟨m, ts, m1, t, hrun, hup, hi, _⟩ :=
    update_tracks_link "AABBCCDD" "CloudMouse" [.init, .update true] false
  have hm : m = ⟨"CM-AABBCCDD", "CloudMouse", some ⟨"CM-AABBCCDD", "CloudMouse"⟩,
      .CONNECTED, true⟩ :=
    (congrArg Prod.fst (Option.some.inj hrun)).symm
  have hinit : m.initialized = true := by rw [hm]
  have hstate : m.currentState = .CONNECTED := by rw [hm]
  exact ⟨m, ts, m1, t, hrun, hup, hinit, hstate, by simpa using hi hinit⟩

/-- C18: from a freshly constructed manager, after any sequence of public calls, the
manager is initialised exactly when the handle is present; so `update()`, which
tests only the flag before it calls the BLE keyboard, returns normally whatever
the BLE keyboard answers: it never goes through an absent handle. -/
theorem initialized_iff_handle (deviceID manufacturer : String) (calls : List Call) :
    ∃ m ts,
      runCalls calls (BluetoothManager.construct deviceID manufacturer) = some (m, ts) ∧
      (m.initialized = true ↔ m.bleKeyboard.isSome = true) ∧
      ∀ live : Bool, ∃ m1 t, update live m = some ((), m1, t) := by
  obtain ⟨m, ts, hrun, h⟩ :=
    runCalls_atRest calls _ (construct_atRest deviceID manufacturer)
  refine ⟨m, ts, hrun, ?_, fun live => ?_⟩
  · rcases h with ⟨h1, h2, _⟩ | ⟨h1, h2, _⟩
    · simp [h1, h2]
    · simp [h1, h2]
  · obtain ⟨m1, t, hup, _⟩ := exec_atRest m h (.update live)
    exact ⟨m1, t, hup⟩

/-- C19: the two status queries are not mutually exclusive.  Right after `init()` on
a freshly constructed manager, with the BLE keyboard answering "connected" before
any `update()`, `isConnected()` and `isAdvertising()` both return true, the current
state is `ADVERTISING`, not `CONNECTED`, and `handleEncoderEvents` of a click writes
the mute key. -/
theorem connected_while_advertising (deviceID manufacturer : String) :
    ∃ m ts, runCalls [.init] (BluetoothManager.construct deviceID manufacturer) = some (m, ts) ∧
      m.initialized = true ∧ m.currentState = .ADVERTISING ∧ m.currentState ≠ .CONNECTED ∧
      isConnected true m = some (true, m, [.kbIsConnected true]) ∧
      isAdvertising m = some (true, m, []) ∧
      handleEncoderEvents ⟨.ENCODER_CLICK, 0⟩ true m =
        some ((), m, [.kbIsConnected true, .kbWrite .KEY_MEDIA_MUTE]) ∧
      keysWritten [.kbIsConnected true, .kbWrite .KEY_MEDIA_MUTE] = [.KEY_MEDIA_MUTE] :=
  ⟨_, _, rfl, rfl, rfl, by simp, rfl, rfl, rfl, rfl⟩

end CloudMouse.Network
